import Mathlib

/-!
Shallow embedding of the GraphGym NAS repository (two source files:
`denas_corr.py` and `graphgym/train_pyg.py`) and proofs about it.

Conventions of the embedding:
* Python floats that carry metric scores are modelled as `ℚ`.
* External collaborators that are not part of the repository
  (`scipy.stats.spearmanr`, `graphgym.loss.compute_loss`,
  `graphgym.utils.epoch.is_eval_epoch` / `is_ckpt_epoch`, the checkpoint
  module, the loaders/loggers machinery, wall-clock timing) are parameters
  of the embedded functions.
* Side effects are made explicit: the training pipeline produces a trace of
  `Event`s, the correlation driver produces a list of `CorrLog` lines.
* Python exceptions (IndexError from `split_names[i-1]`, the unbound
  `cur_epoch` after an empty loop, `torch.load` on a file that was never
  written during the run) are modelled with `Except String`.
-/

/-! ## Correlation driver `denas_corr.py`: the per-candidate scan loop -/

/-- One candidate architecture from the shuffled config-file list.
`key` is the canonical configuration string `seri_dict(order_dict(cfg))`;
`score` is the zero-cost proxy score returned by `runner(args)` (the runner
is executed for every candidate, before the dictionary lookup). -/
structure Candidate where
  key : String
  score : ℚ
  deriving DecidableEq, Repr

/-- One line written through `logger.info` by the scan loop.
`epochLine idx` stands for `f"epoch is {idx}"`;
`scoreLine t d` stands for the single line
`f"train_score is {t:.4f}, denas_score is {d:.4f}"` (both scores share one
line in the source); `spearmanLine c` stands for
`f"spearman_correlation {c:.4f}"`. -/
inductive CorrLog where
  | epochLine (idx : Nat) : CorrLog
  | scoreLine (train_score denas_score : ℚ) : CorrLog
  | spearmanLine (corr : ℚ) : CorrLog
  deriving DecidableEq, Repr

/-- State of the scan loop: the two accumulated score series and the log. -/
structure ScanState where
  train_score_list : List ℚ
  denas_score_list : List ℚ
  log : List CorrLog
  deriving DecidableEq, Repr

/-- The `for idx, model_yaml_name in enumerate(...)` loop of `denas_corr.py`.
`dict` is the deserialized `model_key_dict` (association list keyed by the
canonical configuration string), `spearman` is `scipy.stats.spearmanr`
restricted to its correlation component (an external function).  A candidate
whose key is absent from the dictionary is skipped by `continue`: nothing is
appended and nothing is logged. -/
def scan (dict : List (String × ℚ)) (spearman : List ℚ → List ℚ → ℚ) :
    Nat → ScanState → List Candidate → ScanState
  | _, st, [] => st
  | idx, st, c :: rest =>
    match dict.lookup c.key with
    | none => scan dict spearman (idx + 1) st rest
    | some train_score =>
      let ts := st.train_score_list ++ [train_score]
      let ds := st.denas_score_list ++ [c.score]
      scan dict spearman (idx + 1)
        ⟨ts, ds,
          st.log ++ [CorrLog.epochLine idx,
            CorrLog.scoreLine train_score c.score,
            CorrLog.spearmanLine (spearman ts ds)]⟩ rest

/-- The matched `(train_score, denas_score)` pairs of a candidate list, in
scan order: one pair per candidate whose key is in the dictionary. -/
def matchedPairs (dict : List (String × ℚ)) (cands : List Candidate) :
    List (ℚ × ℚ) :=
  cands.filterMap fun c => (dict.lookup c.key).map fun t => (t, c.score)

/-- Projection of a log line to its epoch index, when it is an `epochLine`. -/
def epochIdx : CorrLog → Option Nat
  | CorrLog.epochLine idx => some idx
  | _ => none

/-- Projection of a log line to its pair of scores, for `scoreLine`s. -/
def scorePair : CorrLog → Option (ℚ × ℚ)
  | CorrLog.scoreLine t d => some (t, d)
  | _ => none

/-- Projection of a log line to the reported correlation value. -/
def spearVal : CorrLog → Option ℚ
  | CorrLog.spearmanLine c => some c
  | _ => none

/-! ## Training pipeline `graphgym/train_pyg.py` -/

/-- Observable actions of the training pipeline, in program order. -/
inductive Event where
  | logInfo (msg : String) : Event
  | trainEpochCall (epoch : Nat) : Event
  | writeEpoch (split : Nat) (epoch : Nat) : Event
  | evalEpochCall (split : Nat) (name : String) (epoch : Nat) : Event
  | saveCkpt (epoch : Nat) : Event
  | saveModel (epoch : Nat) : Event
  | loadModel (device : String) : Event
  | closeLogger (idx : Nat) : Event
  | cleanCkpt : Event
  deriving DecidableEq, Repr

/-- The fixed list `split_names = ['val', 'test']` of `train`/`train_nas`. -/
def split_names : List String := ["val", "test"]

/-- The configuration fields read by `train`, together with the two external
epoch-policy predicates `is_eval_epoch` and `is_ckpt_epoch`. -/
structure Cfg where
  max_epoch : Nat
  ckpt_clean : Bool
  device : String
  is_eval_epoch : Nat → Bool
  is_ckpt_epoch : Nat → Bool

/-- The inner `for i in range(1, num_splits)` evaluation loop of `train`,
given the list `range(1, num_splits)`.  `split_names[i - 1]` is a Python
list indexing that raises `IndexError` when `i - 1 ≥ 2`. -/
def evalSplits (cur_epoch : Nat) : List Nat → Except String (List Event)
  | [] => Except.ok []
  | i :: rest =>
    match split_names.get? (i - 1) with
    | none => Except.error "IndexError: list index out of range"
    | some nm => do
      let tail ← evalSplits cur_epoch rest
      Except.ok ([Event.evalEpochCall i nm cur_epoch,
        Event.writeEpoch i cur_epoch] ++ tail)

/-- The body of `train`'s epoch loop, iterated over the list
`range(start_epoch, cfg.optim.max_epoch)`. -/
def trainLoop (c : Cfg) (num_splits : Nat) :
    List Nat → Except String (List Event)
  | [] => Except.ok []
  | cur :: rest => do
    let ev ← if c.is_eval_epoch cur then
        evalSplits cur (List.range' 1 (num_splits - 1))
      else Except.ok []
    let tail ← trainLoop c num_splits rest
    Except.ok ([Event.trainEpochCall cur, Event.writeEpoch 0 cur] ++ ev ++
      (if c.is_ckpt_epoch cur then [Event.saveCkpt cur] else []) ++ tail)

/-- The `train` pipeline.  `start_epoch` is the epoch returned by the
external `load_ckpt` when auto-resume is on (0 otherwise); `num_splits` is
`len(loggers)`.  The result is the trace of observable actions, or the
uncaught Python exception. -/
def train (c : Cfg) (start_epoch num_splits : Nat) :
    Except String (List Event) := do
  let header := if start_epoch = c.max_epoch then
      [Event.logInfo "Checkpoint found, Task already done"]
    else
      [Event.logInfo ("Start from epoch " ++ toString start_epoch)]
  let body ← trainLoop c num_splits
    (List.range' start_epoch (c.max_epoch - start_epoch))
  Except.ok (header ++ body ++ (List.range num_splits).map Event.closeLogger
    ++ (if c.ckpt_clean then [Event.cleanCkpt] else [])
    ++ [Event.logInfo ("Task done, results saved in out_dir")])

/-- The configuration fields read by `train_nas` (it consults only the
checkpoint-epoch policy; unlike `train` it evaluates val every epoch). -/
structure NasCfg where
  max_epoch : Nat
  ckpt_clean : Bool
  device : String
  is_ckpt_epoch : Nat → Bool

/-- Loop-carried state of `train_nas`: the trace so far, `best_val_result`,
whether `torch.save(model, model_path)` has run at least once during this
call, and the accumulated `training_time` (seconds). -/
structure NasState where
  trace : List Event
  best : ℚ
  saved : Bool
  time : ℚ

/-- One iteration of `train_nas`'s epoch loop: train, write train stats,
evaluate the val split (index 1, every epoch), write val stats, persist the
model iff `val_accuracy > best_val_result`, then honor the checkpoint
policy.  `valMetric cur` is `stats[metric]` of the val split at epoch
`cur`; `epochTime cur` is the wall-clock duration of the `train_epoch`
call. -/
def nasEpoch (c : NasCfg) (valMetric : Nat → ℚ) (epochTime : Nat → ℚ)
    (st : NasState) (cur : Nat) : NasState :=
  let v := valMetric cur
  { trace := st.trace ++ [Event.trainEpochCall cur, Event.writeEpoch 0 cur,
      Event.evalEpochCall 1 "val" cur, Event.writeEpoch 1 cur] ++
      (if st.best < v then [Event.saveModel cur] else []) ++
      (if c.is_ckpt_epoch cur then [Event.saveCkpt cur] else [])
    best := if st.best < v then v else st.best
    saved := if st.best < v then true else st.saved
    time := st.time + epochTime cur }

/-- `train_nas`'s epoch loop over the list `range(start_epoch, max_epoch)`. -/
def nasLoop (c : NasCfg) (valMetric : Nat → ℚ) (epochTime : Nat → ℚ) :
    NasState → List Nat → NasState
  | st, [] => st
  | st, cur :: rest => nasLoop c valMetric epochTime (nasEpoch c valMetric epochTime st cur) rest

/-- The `train_nas` pipeline.  Wall-clock timing, the val/test metric values
produced by the external loggers, and the parameter count are parameters.
After the loop the code runs `torch.load(model_path)` — which fails when no
`torch.save` ran during this call (the best-model file was never written) —
and then `loggers[2].write_epoch(cur_epoch)`, which raises `NameError` when
the loop ran zero iterations and `cur_epoch` was never bound.  On success it
returns the trace together with the 4-tuple
`(best_val_result, test_accuracy, training_time * 1000, num_params)`. -/
def train_nas (c : NasCfg) (start_epoch num_splits : Nat)
    (valMetric : Nat → ℚ) (testMetric : ℚ) (epochTime : Nat → ℚ)
    (num_params : Nat) : Except String (List Event × ℚ × ℚ × ℚ × Nat) :=
  let header := if start_epoch = c.max_epoch then
      [Event.logInfo "Checkpoint found, Task already done"]
    else
      [Event.logInfo ("Start from epoch " ++ toString start_epoch)]
  let epochs := List.range' start_epoch (c.max_epoch - start_epoch)
  let st := nasLoop c valMetric epochTime ⟨header, -1, false, 0⟩ epochs
  if st.saved then
    match epochs.getLast? with
    | none => Except.error "NameError: name cur_epoch is not defined"
    | some cur_epoch =>
      Except.ok (st.trace ++ [Event.loadModel c.device,
          Event.evalEpochCall 2 "test" cur_epoch,
          Event.writeEpoch 2 cur_epoch]
        ++ (List.range num_splits).map Event.closeLogger
        ++ (if c.ckpt_clean then [Event.cleanCkpt] else []),
        st.best, testMetric, st.time * 1000, num_params)
  else
    Except.error "FileNotFoundError: best-model file was never written"

/-! ## `eval_epoch` and its frame property -/

/-- A batch as `eval_epoch` sees it: an opaque payload. -/
structure Batch where
  x : ℚ

/-- A model: trainable parameters, the train/eval mode flag toggled by
`model.train()` / `model.eval()`, and the forward computation (which in
`eval_epoch` is used with its hidden-state component discarded, so the
embedding keeps only `(pred, true)`). -/
structure Model where
  params : List ℚ
  training : Bool
  forward : ℚ → ℚ × ℚ

/-- One `logger.update_stats(...)` record. -/
structure StatRecord where
  true_val : ℚ
  pred : ℚ
  loss : ℚ
  lr : ℚ
  params : Nat
  grad_enabled : Bool
  deriving DecidableEq, Repr

/-- `eval_epoch(logger, loader, model, split)`, decorated with
`@torch.no_grad()`: sets the model to eval mode, then for every batch runs
the forward pass, computes the loss via the external `compute_loss`, and
appends a stats record with `lr=0`, all with gradient tracking disabled.
The model object is returned to make the frame property explicit: only its
mode flag changes. -/
def eval_epoch (compute_loss : ℚ → ℚ → ℚ × ℚ) (cfg_params : Nat)
    (logger : List StatRecord) (loader : List Batch) (model : Model)
    (split : String) : Model × List StatRecord :=
  let m := { model with training := false }
  (m, loader.foldl (fun lg batch =>
      let pt := m.forward batch.x
      let ls := compute_loss pt.1 pt.2
      lg ++ [{ true_val := pt.2, pred := ls.2, loss := ls.1, lr := 0,
               params := cfg_params, grad_enabled := false }]) logger)

/-! ## Lemmas about the scan loop -/

/-- Characterization of the two score series produced by the scan loop. -/
lemma scan_lists (dict : List (String × ℚ)) (sp : List ℚ → List ℚ → ℚ) :
    ∀ (cands : List Candidate) (idx : Nat) (st : ScanState),
      (scan dict sp idx st cands).train_score_list
          = st.train_score_list ++ (matchedPairs dict cands).map Prod.fst
        ∧ (scan dict sp idx st cands).denas_score_list
          = st.denas_score_list ++ (matchedPairs dict cands).map Prod.snd := by
  intro cands
  induction cands with
  | nil => intro idx st; simp [scan, matchedPairs]
  | cons c rest ih =>
    intro idx st
    cases h : dict.lookup c.key with
    | none =>
      simpa [scan, h, matchedPairs, List.filterMap_cons] using ih (idx + 1) st
    | some t =>
      have h2 := ih (idx + 1)
        ⟨st.train_score_list ++ [t], st.denas_score_list ++ [c.score],
          st.log ++ [CorrLog.epochLine idx, CorrLog.scoreLine t c.score,
            CorrLog.spearmanLine
              (sp (st.train_score_list ++ [t]) (st.denas_score_list ++ [c.score]))]⟩
      simp only [scan, h] at h2 ⊢
      simp [h2, matchedPairs, List.filterMap_cons, h]

/-- Length of the log produced by the scan loop: three lines per match. -/
lemma scan_log_len (dict : List (String × ℚ)) (sp : List ℚ → List ℚ → ℚ) :
    ∀ (cands : List Candidate) (idx : Nat) (st : ScanState),
      (scan dict sp idx st cands).log.length
        = st.log.length + 3 * (matchedPairs dict cands).length := by
  intro cands
  induction cands with
  | nil => intro idx st; simp [scan, matchedPairs]
  | cons c rest ih =>
    intro idx st
    cases h : dict.lookup c.key with
    | none =>
      simpa [scan, h, matchedPairs, List.filterMap_cons] using ih (idx + 1) st
    | some t =>
      simp only [scan, h]
      rw [ih]
      simp [matchedPairs, List.filterMap_cons, h]
      ring

/-- The `epochLine` indices in the scan log are the `enumerate` positions of
the matched candidates within the (shuffled) candidate list. -/
lemma scan_log_epochIdx (dict : List (String × ℚ)) (sp : List ℚ → List ℚ → ℚ) :
    ∀ (cands : List Candidate) (idx : Nat) (st : ScanState),
      (scan dict sp idx st cands).log.filterMap epochIdx
        = st.log.filterMap epochIdx
          ++ ((List.enumFrom idx cands).filter
                (fun p => (dict.lookup p.2.key).isSome)).map Prod.fst := by
  intro cands
  induction cands with
  | nil => intro idx st; simp [scan]
  | cons c rest ih =>
    intro idx st
    cases h : dict.lookup c.key with
    | none =>
      simpa [scan, h, List.enumFrom, List.filter] using ih (idx + 1) st
    | some t =>
      simp only [scan, h]
      rw [ih]
      simp [List.enumFrom, List.filter, h, epochIdx]

/-- The `scoreLine` contents of the scan log are exactly the matched
`(train_score, denas_score)` pairs, in order. -/
lemma scan_log_scorePair (dict : List (String × ℚ)) (sp : List ℚ → List ℚ → ℚ) :
    ∀ (cands : List Candidate) (idx : Nat) (st : ScanState),
      (scan dict sp idx st cands).log.filterMap scorePair
        = st.log.filterMap scorePair ++ matchedPairs dict cands := by
  intro cands
  induction cands with
  | nil => intro idx st; simp [scan, matchedPairs]
  | cons c rest ih =>
    intro idx st
    cases h : dict.lookup c.key with
    | none =>
      simpa [scan, h, matchedPairs, List.filterMap_cons] using ih (idx + 1) st
    | some t =>
      simp only [scan, h]
      rw [ih]
      simp [matchedPairs, List.filterMap_cons, h, scorePair, epochIdx, spearVal]

/-- The correlation values reported in the scan log: the `k`-th reported
value (0-based) is `spearman` applied to the first `k + 1` matched pairs —
the entire accumulated history at that point. -/
lemma scan_log_spearVal (dict : List (String × ℚ)) (sp : List ℚ → List ℚ → ℚ) :
    ∀ (cands : List Candidate) (idx : Nat) (ts ds : List ℚ) (lg : List CorrLog),
      (scan dict sp idx ⟨ts, ds, lg⟩ cands).log.filterMap spearVal
        = lg.filterMap spearVal
          ++ (List.range (matchedPairs dict cands).length).map (fun k =>
              sp (ts ++ ((matchedPairs dict cands).map Prod.fst).take (k + 1))
                 (ds ++ ((matchedPairs dict cands).map Prod.snd).take (k + 1))) := by
  intro cands
  induction cands with
  | nil => intro idx ts ds lg; simp [scan, matchedPairs]
  | cons c rest ih =>
    intro idx ts ds lg
    cases h : dict.lookup c.key with
    | none =>
      simpa [scan, h, matchedPairs, List.filterMap_cons] using ih (idx + 1) ts ds lg
    | some t =>
      simp only [scan, h]
      rw [ih]
      simp [matchedPairs, List.filterMap_cons, h, spearVal,
        List.range_succ_eq_map, List.map_map, Function.comp,
        List.take_succ_cons, List.append_assoc]

/-- C3: after processing any sequence of candidates (mixed dictionary hits
and misses), `train_score_list` and `denas_score_list` have equal length and
are index-aligned to the same candidate: both are the two projections of
the list of matched `(train_score, denas_score)` pairs, one pair per matched
candidate, in scan order.  A candidate whose canonical configuration is
absent from the performance dictionary leaves the whole scan state —
including the log — unchanged. -/
theorem scan_series_aligned (dict : List (String × ℚ))
    (sp : List ℚ → List ℚ → ℚ) (cands : List Candidate) :
    ((scan dict sp 0 ⟨[], [], []⟩ cands).train_score_list.length
        = (scan dict sp 0 ⟨[], [], []⟩ cands).denas_score_list.length)
    ∧ (scan dict sp 0 ⟨[], [], []⟩ cands).train_score_list
        = (matchedPairs dict cands).map Prod.fst
    ∧ (scan dict sp 0 ⟨[], [], []⟩ cands).denas_score_list
        = (matchedPairs dict cands).map Prod.snd
    ∧ ∀ (idx : Nat) (st : ScanState) (c : Candidate) (rest : List Candidate),
        dict.lookup c.key = none →
        scan dict sp idx st (c :: rest) = scan dict sp (idx + 1) st rest := by
  obtain ⟨h1, h2⟩ := scan_lists dict sp cands 0 ⟨[], [], []⟩
  refine ⟨?_, ?_, ?_, ?_⟩
  · rw [h1, h2]; simp
  · simpa using h1
  · simpa using h2
  · intro idx st c rest h
    simp [scan, h]

/-- Witness for `scan_series_aligned` at a concrete dictionary and candidate
list (one miss, one hit), discharging the lookup-miss hypothesis of the
skip conjunct. -/
theorem scan_series_aligned_witness :
    ((scan [("a", (1 : ℚ))] (fun _ _ => 0) 0 ⟨[], [], []⟩
        [⟨"b", 2⟩, ⟨"a", 3⟩]).train_score_list.length
      = (scan [("a", (1 : ℚ))] (fun _ _ => 0) 0 ⟨[], [], []⟩
        [⟨"b", 2⟩, ⟨"a", 3⟩]).denas_score_list.length)
    ∧ scan [("a", (1 : ℚ))] (fun _ _ => 0) 0 ⟨[], [], []⟩ [⟨"b", 2⟩]
        = scan [("a", (1 : ℚ))] (fun _ _ => 0) 1 ⟨[], [], []⟩ [] :=
  ⟨(scan_series_aligned [("a", 1)] (fun _ _ => 0) [⟨"b", 2⟩, ⟨"a", 3⟩]).1,
    (scan_series_aligned [("a", 1)] (fun _ _ => 0) []).2.2.2 0 ⟨[], [], []⟩
      ⟨"b", 2⟩ [] rfl⟩

/-- C4 counterexample: a matched candidate produces three log lines, not
four — the trained score and the proxy score share one line.  With
dictionary `[("a", 1)]` and the single candidate `⟨"a", 2⟩` the complete
scan state is computed explicitly: the log is
`[epochLine 0, scoreLine 1 2, spearmanLine _]`, of length 3. -/
theorem scan_log_three_lines_concrete :
    scan [("a", (1 : ℚ))] (fun _ _ => 0) 0 ⟨[], [], []⟩ [⟨"a", 2⟩]
      = ⟨[1], [2], [CorrLog.epochLine 0, CorrLog.scoreLine 1 2,
          CorrLog.spearmanLine 0]⟩
    ∧ (scan [("a", (1 : ℚ))] (fun _ _ => 0) 0 ⟨[], [], []⟩
        [⟨"a", 2⟩]).log.length = 3 := by
  constructor
  · rfl
  · rfl

/-- C4 (amended): for every matched candidate the correlation driver logs
three lines, not four — an `epochLine` carrying the current loop index
(the candidate's position in the shuffled file list, not the count of
matched pairs, so logged indices may skip), a single `scoreLine` carrying
both the trained score and the proxy score (each rendered to 4 decimal
places), and a `spearmanLine` carrying the running Spearman correlation
(rendered to 4 decimal places). -/
theorem scan_log_lines (dict : List (String × ℚ))
    (sp : List ℚ → List ℚ → ℚ) (cands : List Candidate) :
    (scan dict sp 0 ⟨[], [], []⟩ cands).log.length
        = 3 * (matchedPairs dict cands).length
    ∧ (scan dict sp 0 ⟨[], [], []⟩ cands).log.filterMap epochIdx
        = ((cands.enum).filter
            (fun p => (dict.lookup p.2.key).isSome)).map Prod.fst
    ∧ (scan dict sp 0 ⟨[], [], []⟩ cands).log.filterMap scorePair
        = matchedPairs dict cands := by
  refine ⟨?_, ?_, ?_⟩
  · simpa using scan_log_len dict sp cands 0 ⟨[], [], []⟩
  · simpa [List.enum] using scan_log_epochIdx dict sp cands 0 ⟨[], [], []⟩
  · simpa using scan_log_scorePair dict sp cands 0 ⟨[], [], []⟩

/-- C5: after each matched pair is appended, the reported Spearman
correlation is recomputed from scratch over the entire accumulated history
of matched pairs: the `k`-th reported value (0-based) is `spearman` applied
to the first `k + 1` matched pairs.  In particular, with matched pairs
`(1,1)` then `(2,2)`, the value reported after the second pair is
`spearman [1, 2] [1, 2]`. -/
theorem scan_spearman_full_history (dict : List (String × ℚ))
    (sp : List ℚ → List ℚ → ℚ) (cands : List Candidate) :
    ((scan dict sp 0 ⟨[], [], []⟩ cands).log.filterMap spearVal
      = (List.range (matchedPairs dict cands).length).map (fun k =>
          sp (((matchedPairs dict cands).map Prod.fst).take (k + 1))
            (((matchedPairs dict cands).map Prod.snd).take (k + 1))))
    ∧ ∀ (s : List ℚ → List ℚ → ℚ),
        (scan [("a", 1), ("b", 2)] s 0 ⟨[], [], []⟩
            [⟨"a", 1⟩, ⟨"b", 2⟩]).log.filterMap spearVal
          = [s [1] [1], s [1, 2] [1, 2]] := by
  constructor
  · simpa using scan_log_spearVal dict sp cands 0 [] [] []
  · intro s
    rfl

/-! ## Lemmas about `train` -/

/-- The event block of one epoch of `train`, in the non-raising case. -/
def epochTrace (c : Cfg) (num_splits cur : Nat) : List Event :=
  [Event.trainEpochCall cur, Event.writeEpoch 0 cur]
  ++ (if c.is_eval_epoch cur then
      (List.range' 1 (num_splits - 1)).flatMap (fun i =>
        [Event.evalEpochCall i (split_names.getD (i - 1) "") cur,
          Event.writeEpoch i cur])
    else [])
  ++ (if c.is_ckpt_epoch cur then [Event.saveCkpt cur] else [])

/-- With at most three splits, the inner evaluation loop raises no
`IndexError`. -/
lemma evalSplits_ok (cur : Nat) :
    ∀ l : List Nat, (∀ i ∈ l, i - 1 < split_names.length) →
      evalSplits cur l = Except.ok (l.flatMap fun i =>
        [Event.evalEpochCall i (split_names.getD (i - 1) "") cur,
          Event.writeEpoch i cur]) := by
  intro l
  induction l with
  | nil => intro _; rfl
  | cons i rest ih =>
    intro h
    have hi : i - 1 < split_names.length := h i (List.mem_cons_self i rest)
    have hrest := ih (fun j hj => h j (List.mem_cons_of_mem i hj))
    have hcase : i - 1 = 0 ∨ i - 1 = 1 := by
      simp [split_names] at hi; omega
    have hget : split_names.get? (i - 1) = some (split_names.getD (i - 1) "") := by
      rcases hcase with h0 | h1
      · rw [h0]; rfl
      · rw [h1]; rfl
    simp only [evalSplits]
    rw [hget, hrest]
    rfl

/-- Reduction of a monadic bind over a successful `Except` computation. -/
lemma ok_bind {ε α β : Type} (a : α) (f : α → Except ε β) :
    (Except.ok a : Except ε α) >>= f = f a := rfl

/-- With at most three splits, the epoch loop of `train` raises nothing and
produces the concatenation of the per-epoch blocks. -/
lemma trainLoop_ok (c : Cfg) (num_splits : Nat) (h : num_splits ≤ 3) :
    ∀ l : List Nat, trainLoop c num_splits l
      = Except.ok (l.flatMap (epochTrace c num_splits)) := by
  intro l
  induction l with
  | nil => rfl
  | cons cur rest ih =>
    have hev : evalSplits cur (List.range' 1 (num_splits - 1))
        = Except.ok ((List.range' 1 (num_splits - 1)).flatMap fun i =>
          [Event.evalEpochCall i (split_names.getD (i - 1) "") cur,
            Event.writeEpoch i cur]) := by
      apply evalSplits_ok
      intro i hi
      have := List.mem_range'_1.mp hi
      simp [split_names]
      omega
    cases hb : c.is_eval_epoch cur
    · simp only [trainLoop, hb, if_neg, Bool.false_eq_true, not_false_iff,
        ite_false, ih, hev]
      simp [ok_bind, epochTrace, hb, List.append_assoc]
    · simp only [trainLoop, hb, ite_true, ih, hev]
      simp [ok_bind, epochTrace, hb, List.append_assoc]

/-- With at most three splits, `train` returns its full trace. -/
lemma train_ok (c : Cfg) (start_epoch num_splits : Nat) (h : num_splits ≤ 3) :
    train c start_epoch num_splits
      = Except.ok ((if start_epoch = c.max_epoch then
            [Event.logInfo "Checkpoint found, Task already done"]
          else
            [Event.logInfo ("Start from epoch " ++ toString start_epoch)])
        ++ (List.range' start_epoch (c.max_epoch - start_epoch)).flatMap
            (epochTrace c num_splits)
        ++ (List.range num_splits).map Event.closeLogger
        ++ (if c.ckpt_clean then [Event.cleanCkpt] else [])
        ++ [Event.logInfo ("Task done, results saved in out_dir")]) := by
  simp only [train, trainLoop_ok c num_splits h]
  rfl

/-- Whether an event is an invocation of `train_epoch`. -/
def isTrainEpochCall : Event → Bool
  | Event.trainEpochCall _ => true
  | _ => false

/-- Each epoch block contains exactly one `train_epoch` invocation. -/
lemma epochTrace_countP_train (c : Cfg) (ns cur : Nat) :
    (epochTrace c ns cur).countP isTrainEpochCall = 1 := by
  cases h1 : c.is_eval_epoch cur <;> cases h2 : c.is_ckpt_epoch cur <;>
    simp [epochTrace, h1, h2, List.countP_append, List.countP_cons,
      isTrainEpochCall, List.countP_eq_zero] <;>
    rintro a x - - (rfl | rfl) <;> rfl

/-- The number of `train_epoch` invocations over a list of epochs. -/
lemma flatMap_countP_train (c : Cfg) (ns : Nat) :
    ∀ l : List Nat,
      ((l.flatMap (epochTrace c ns)).countP isTrainEpochCall) = l.length := by
  intro l
  induction l with
  | nil => rfl
  | cons cur rest ih =>
    simp [List.countP_append, ih, epochTrace_countP_train]
    omega

/-- `saveCkpt` events of one epoch block. -/
lemma saveCkpt_mem_epochTrace (c : Cfg) (ns cur e : Nat) :
    (Event.saveCkpt e ∈ epochTrace c ns cur) ↔ (e = cur ∧ c.is_ckpt_epoch cur) := by
  cases h1 : c.is_eval_epoch cur <;> cases h2 : c.is_ckpt_epoch cur <;>
    simp [epochTrace, h1, h2, List.mem_flatMap]

/-- `evalEpochCall` events of one epoch block. -/
lemma evalCall_mem_epochTrace (c : Cfg) (ns cur : Nat) (i : Nat) (nm : String)
    (e : Nat) :
    (Event.evalEpochCall i nm e ∈ epochTrace c ns cur)
      ↔ (c.is_eval_epoch cur ∧ e = cur ∧ i ∈ List.range' 1 (ns - 1)
          ∧ nm = split_names.getD (i - 1) "") := by
  cases h1 : c.is_eval_epoch cur <;> cases h2 : c.is_ckpt_epoch cur <;>
    simp [epochTrace, h1, h2, List.mem_flatMap, List.mem_range'_1] <;> aesop

/-- `saveCkpt` events over a list of epoch blocks. -/
lemma saveCkpt_mem_flatMap (c : Cfg) (ns : Nat) (l : List Nat) (e : Nat) :
    (Event.saveCkpt e ∈ l.flatMap (epochTrace c ns))
      ↔ (e ∈ l ∧ c.is_ckpt_epoch e) := by
  rw [List.mem_flatMap]
  constructor
  · rintro ⟨cur, hcur, hmem⟩
    obtain ⟨rfl, h2⟩ := (saveCkpt_mem_epochTrace c ns cur e).mp hmem
    exact ⟨hcur, h2⟩
  · rintro ⟨he, h2⟩
    exact ⟨e, he, (saveCkpt_mem_epochTrace c ns e e).mpr ⟨rfl, h2⟩⟩

/-- `evalEpochCall` events over a list of epoch blocks. -/
lemma evalCall_mem_flatMap (c : Cfg) (ns : Nat) (l : List Nat) (i : Nat)
    (nm : String) (e : Nat) :
    (Event.evalEpochCall i nm e ∈ l.flatMap (epochTrace c ns))
      ↔ (e ∈ l ∧ c.is_eval_epoch e ∧ i ∈ List.range' 1 (ns - 1)
          ∧ nm = split_names.getD (i - 1) "") := by
  rw [List.mem_flatMap]
  constructor
  · rintro ⟨cur, hcur, hmem⟩
    obtain ⟨h1, rfl, h3, h4⟩ := (evalCall_mem_epochTrace c ns cur i nm e).mp hmem
    exact ⟨hcur, h1, h3, h4⟩
  · rintro ⟨he, h1, h3, h4⟩
    exact ⟨e, he, (evalCall_mem_epochTrace c ns e i nm e).mpr ⟨h1, rfl, h3, h4⟩⟩

/-- C8: with the 3-split convention, for start epoch `s` and configured
maximum `m` the `train` loop invokes `train_epoch` exactly `m - s` times;
a checkpoint is saved exactly at the in-range epochs where `is_ckpt_epoch`
holds, and the non-training splits are evaluated (labelled `'val'` for
split 1 and `'test'` for split 2, i.e. `split_names[i-1]`) exactly at the
in-range epochs where `is_eval_epoch` holds.  With both predicates
constantly false the right-hand sides are empty: no checkpoint is saved and
no evaluation occurs, while training still covers the whole epoch range. -/
theorem train_epoch_bookkeeping (c : Cfg) (start_epoch num_splits : Nat)
    (h : num_splits ≤ 3) :
    ∃ tr, train c start_epoch num_splits = Except.ok tr
      ∧ tr.countP isTrainEpochCall = c.max_epoch - start_epoch
      ∧ (∀ e, Event.saveCkpt e ∈ tr ↔
          (start_epoch ≤ e ∧ e < c.max_epoch ∧ c.is_ckpt_epoch e))
      ∧ (∀ i nm e, Event.evalEpochCall i nm e ∈ tr ↔
          (start_epoch ≤ e ∧ e < c.max_epoch ∧ c.is_eval_epoch e
            ∧ 1 ≤ i ∧ i < num_splits ∧ nm = split_names.getD (i - 1) "")) := by
  refine ⟨_, train_ok c start_epoch num_splits h, ?_, ?_, ?_⟩
  · by_cases hse : start_epoch = c.max_epoch <;> by_cases hcc : c.ckpt_clean <;>
      simp [hse, hcc, List.countP_append, flatMap_countP_train,
        List.length_range', List.countP_eq_zero, List.mem_map,
        isTrainEpochCall]
  · intro e
    have h1 : Event.saveCkpt e ∈ (if start_epoch = c.max_epoch then
          [Event.logInfo "Checkpoint found, Task already done"]
        else [Event.logInfo ("Start from epoch " ++ toString start_epoch)])
        ↔ False := by
      split <;> simp
    have h4 : Event.saveCkpt e ∈ (if c.ckpt_clean then [Event.cleanCkpt]
        else []) ↔ False := by
      split <;> simp
    simp only [List.mem_append, h1, saveCkpt_mem_flatMap, h4,
      List.mem_range'_1, List.mem_map, List.mem_singleton, false_or, or_false]
    constructor
    · rintro ((⟨⟨a, b⟩, d⟩ | ⟨x, -, hx⟩) | hC)
      · exact ⟨a, by omega, d⟩
      · exact absurd hx (by simp)
      · exact absurd hC (by simp)
    · rintro ⟨a, b, d⟩
      exact Or.inl (Or.inl ⟨⟨a, by omega⟩, d⟩)
  · intro i nm e
    have h1 : Event.evalEpochCall i nm e ∈ (if start_epoch = c.max_epoch then
          [Event.logInfo "Checkpoint found, Task already done"]
        else [Event.logInfo ("Start from epoch " ++ toString start_epoch)])
        ↔ False := by
      split <;> simp
    have h4 : Event.evalEpochCall i nm e ∈ (if c.ckpt_clean then
        [Event.cleanCkpt] else []) ↔ False := by
      split <;> simp
    simp only [List.mem_append, h1, evalCall_mem_flatMap, h4,
      List.mem_range'_1, List.mem_map, List.mem_singleton, false_or, or_false]
    constructor
    · rintro ((⟨⟨a, b⟩, hv, ⟨c1, c2⟩, hnm⟩ | ⟨x, -, hx⟩) | hC)
      · exact ⟨a, by omega, hv, c1, by omega, hnm⟩
      · exact absurd hx (by simp)
      · exact absurd hC (by simp)
    · rintro ⟨a, b, hv, c1, c2, hnm⟩
      exact Or.inl (Or.inl ⟨⟨a, by omega⟩, hv, ⟨c1, by omega⟩, hnm⟩)

/-- Witness for `train_epoch_bookkeeping`: a concrete 3-epoch, 3-split run
whose policies evaluate at epoch 1 and checkpoint at epoch 2. -/
theorem train_epoch_bookkeeping_witness :
    (3 : Nat) ≤ 3
    ∧ ∃ tr, train ⟨3, false, "cpu", fun e => decide (e = 1),
          fun e => decide (e = 2)⟩ 0 3 = Except.ok tr
        ∧ tr.countP isTrainEpochCall = 3
        ∧ (∀ e, Event.saveCkpt e ∈ tr ↔ (0 ≤ e ∧ e < 3 ∧ decide (e = 2) = true))
        ∧ (∀ i nm e, Event.evalEpochCall i nm e ∈ tr ↔
            (0 ≤ e ∧ e < 3 ∧ decide (e = 1) = true ∧ 1 ≤ i ∧ i < 3
              ∧ nm = split_names.getD (i - 1) "")) :=
  ⟨by decide, train_epoch_bookkeeping ⟨3, false, "cpu", fun e => decide (e = 1),
    fun e => decide (e = 2)⟩ 0 3 (by decide)⟩

/-- C2 counterexample: with `max_epoch = 1`, `ckpt_clean = true` and a
resumed `start_epoch = 1 = max_epoch`, `train` logs the already-done
message and runs no epoch — but it does not stop there: it still closes
the logger, cleans the checkpoints, and emits the final completion log, so
side effects beyond the already-done message do occur. -/
theorem train_already_done_has_side_effects :
    train ⟨1, true, "cpu", fun _ => false, fun _ => false⟩ 1 1
        = Except.ok [Event.logInfo "Checkpoint found, Task already done",
            Event.closeLogger 0, Event.cleanCkpt,
            Event.logInfo "Task done, results saved in out_dir"]
    ∧ Event.cleanCkpt ∈ [Event.logInfo "Checkpoint found, Task already done",
        Event.closeLogger 0, Event.cleanCkpt,
        Event.logInfo "Task done, results saved in out_dir"] := by
  exact ⟨rfl, by simp⟩

/-- C2 (amended): when the resumed start epoch equals the configured
maximum, `train` logs `'Checkpoint found, Task already done'` and the epoch
loop never runs — no `train_epoch` call, no evaluation call, no epoch-stats
write and no checkpoint save occur — but the run is not free of further
side effects: every logger is still closed, the checkpoints are cleaned
when `cfg.train.ckpt_clean` is set, and the final completion message is
still logged. -/
theorem train_already_done (c : Cfg) (num_splits : Nat) :
    ∃ tr, train c c.max_epoch num_splits = Except.ok tr
      ∧ tr = [Event.logInfo "Checkpoint found, Task already done"]
          ++ (List.range num_splits).map Event.closeLogger
          ++ (if c.ckpt_clean then [Event.cleanCkpt] else [])
          ++ [Event.logInfo ("Task done, results saved in out_dir")]
      ∧ (∀ e, Event.trainEpochCall e ∉ tr)
      ∧ (∀ i nm e, Event.evalEpochCall i nm e ∉ tr)
      ∧ (∀ e, Event.saveCkpt e ∉ tr)
      ∧ (∀ s e, Event.writeEpoch s e ∉ tr) := by
  refine ⟨_, ?_, rfl, ?_, ?_, ?_, ?_⟩
  · simp [train, Nat.sub_self, trainLoop, ok_bind]
  · intro e
    by_cases hcc : c.ckpt_clean <;> simp [hcc]
  · intro i nm e
    by_cases hcc : c.ckpt_clean <;> simp [hcc]
  · intro e
    by_cases hcc : c.ckpt_clean <;> simp [hcc]
  · intro s e
    by_cases hcc : c.ckpt_clean <;> simp [hcc]

/-- When some index of the inner evaluation loop falls outside
`split_names`, the loop raises `IndexError`. -/
lemma evalSplits_err (cur : Nat) :
    ∀ l : List Nat, (∃ i ∈ l, split_names.length ≤ i - 1) →
      evalSplits cur l = Except.error "IndexError: list index out of range" := by
  intro l
  induction l with
  | nil => rintro ⟨i, hi, _⟩; cases hi
  | cons j rest ih =>
    rintro ⟨i, hi, hge⟩
    rcases List.mem_cons.mp hi with rfl | hmem
    · have hg : split_names.get? (i - 1) = none := by
        rw [List.get?_eq_none]
        exact hge
      simp only [evalSplits]
      rw [hg]
    · cases hg : split_names.get? (j - 1) with
      | none =>
        simp only [evalSplits]
        rw [hg]
      | some nm =>
        have ht := ih ⟨i, hmem, hge⟩
        simp only [evalSplits]
        rw [hg, ht]
        rfl

/-- With four or more splits, any epoch on which evaluation fires makes
the whole epoch loop raise `IndexError`. -/
lemma trainLoop_err (c : Cfg) (num_splits : Nat) (h4 : 4 ≤ num_splits) :
    ∀ l : List Nat, (∃ e ∈ l, c.is_eval_epoch e) →
      trainLoop c num_splits l
        = Except.error "IndexError: list index out of range" := by
  intro l
  induction l with
  | nil => rintro ⟨e, he, _⟩; cases he
  | cons cur rest ih =>
    rintro ⟨e, he, hev⟩
    by_cases hcur : c.is_eval_epoch cur
    · have herr : evalSplits cur (List.range' 1 (num_splits - 1))
          = Except.error "IndexError: list index out of range" := by
        apply evalSplits_err
        refine ⟨3, ?_, by simp [split_names]⟩
        rw [List.mem_range'_1]
        omega
      simp [trainLoop, hcur, herr]
      rfl
    · rcases List.mem_cons.mp he with rfl | hmem
      · exact absurd hev hcur
      · have ht := ih ⟨e, hmem, hev⟩
        simp [trainLoop, hcur, ht, ok_bind]
        rfl

/-- C10: `train` indexes the fixed two-element `split_names` list at
`i - 1` for `i` up to `len(loggers) - 1`; with more than three
loggers/loaders, any in-range epoch on which `is_eval_epoch` fires reaches
`i = 3` and raises `IndexError`, so the 3-split convention is a
precondition of `train`. -/
theorem train_more_than_three_splits_fails (c : Cfg)
    (start_epoch num_splits : Nat) (h4 : 4 ≤ num_splits) (e : Nat)
    (he1 : start_epoch ≤ e) (he2 : e < c.max_epoch)
    (hev : c.is_eval_epoch e = true) :
    train c start_epoch num_splits
      = Except.error "IndexError: list index out of range" := by
  have hloop : trainLoop c num_splits
      (List.range' start_epoch (c.max_epoch - start_epoch))
      = Except.error "IndexError: list index out of range" := by
    apply trainLoop_err c num_splits h4
    refine ⟨e, ?_, hev⟩
    rw [List.mem_range'_1]
    omega
  simp [train, hloop]
  rfl

/-- Witness for `train_more_than_three_splits_fails`: one epoch, four
splits, evaluation firing on every epoch. -/
theorem train_more_than_three_splits_fails_witness :
    ((4 : Nat) ≤ 4 ∧ (0 : Nat) ≤ 0 ∧ (0 : Nat) < 1)
    ∧ train ⟨1, false, "cpu", fun _ => true, fun _ => false⟩ 0 4
        = Except.error "IndexError: list index out of range" :=
  ⟨⟨by decide, by decide, by decide⟩,
    train_more_than_three_splits_fails
      ⟨1, false, "cpu", fun _ => true, fun _ => false⟩ 0 4 (by decide) 0
      (by decide) (by decide) rfl⟩

/-! ## Lemmas about `train_nas` -/

/-- Whether an event is a `torch.save(model, model_path)` persistence. -/
def isSaveModel : Event → Bool
  | Event.saveModel _ => true
  | _ => false

/-- The trace appended by `train_nas`'s epoch loop, as a function of the
incoming `best_val_result`. -/
def nasTraceFrom (c : NasCfg) (valMetric : Nat → ℚ) (b0 : ℚ) :
    List Nat → List Event
  | [] => []
  | cur :: rest =>
    ([Event.trainEpochCall cur, Event.writeEpoch 0 cur,
      Event.evalEpochCall 1 "val" cur, Event.writeEpoch 1 cur] ++
      (if b0 < valMetric cur then [Event.saveModel cur] else []) ++
      (if c.is_ckpt_epoch cur then [Event.saveCkpt cur] else []))
      ++ nasTraceFrom c valMetric
          (if b0 < valMetric cur then valMetric cur else b0) rest

/-- Whether some epoch of the given list strictly improves on the running
best (i.e. whether `torch.save` runs at least once). -/
def nasSavedFrom (valMetric : Nat → ℚ) (b0 : ℚ) : List Nat → Bool
  | [] => false
  | cur :: rest => if b0 < valMetric cur then true
      else nasSavedFrom valMetric b0 rest

/-- Full characterization of the nas epoch loop. -/
lemma nasLoop_spec (c : NasCfg) (vm et : Nat → ℚ) :
    ∀ (l : List Nat) (st : NasState),
      nasLoop c vm et st l
        = ⟨st.trace ++ nasTraceFrom c vm st.best l,
            (l.map vm).foldl (fun b v => if b < v then v else b) st.best,
            st.saved || nasSavedFrom vm st.best l,
            st.time + (l.map et).sum⟩ := by
  intro l
  induction l with
  | nil =>
    intro st
    cases st
    simp [nasLoop, nasTraceFrom, nasSavedFrom]
  | cons cur rest ih =>
    intro st
    rw [show nasLoop c vm et st (cur :: rest)
        = nasLoop c vm et (nasEpoch c vm et st cur) rest from rfl, ih]
    by_cases hbv : st.best < vm cur <;>
      simp [nasEpoch, nasTraceFrom, nasSavedFrom, hbv, List.append_assoc,
        add_assoc]

/-- Every evaluation event issued inside the nas epoch loop is on split 1
with label `"val"`, at an epoch of the loop's range. -/
lemma evalCall_mem_nasTraceFrom (c : NasCfg) (vm : Nat → ℚ) :
    ∀ (l : List Nat) (b0 : ℚ) (i : Nat) (nm : String) (e : Nat),
      Event.evalEpochCall i nm e ∈ nasTraceFrom c vm b0 l →
        i = 1 ∧ nm = "val" ∧ e ∈ l := by
  intro l
  induction l with
  | nil => intro b0 i nm e h; cases h
  | cons cur rest ih =>
    intro b0 i nm e h
    rw [nasTraceFrom, List.mem_append] at h
    rcases h with h | h
    · by_cases h1 : b0 < vm cur <;> by_cases h2 : c.is_ckpt_epoch cur <;>
        simp [h1, h2] at h <;>
        exact ⟨h.1, h.2.1, h.2.2 ▸ List.mem_cons_self cur rest⟩
    · obtain ⟨hi, hnm, he⟩ := ih _ i nm e h
      exact ⟨hi, hnm, List.mem_cons_of_mem cur he⟩

/-- The last epoch bound by the loop variable `cur_epoch`. -/
lemma range1_getLast (s n : Nat) (h : 0 < n) :
    (List.range' s n).getLast? = some (s + n - 1) := by
  cases n with
  | zero => omega
  | succ k =>
    rw [List.range'_1_concat, List.getLast?_concat]
    congr 1

/-- `torch.save` runs at the very first epoch whenever its validation
metric beats the `-1` sentinel, so the saved flag holds afterwards. -/
lemma nasSavedFrom_cons_of_lt (vm : Nat → ℚ) (b0 : ℚ) (cur : Nat)
    (rest : List Nat) (h : b0 < vm cur) :
    nasSavedFrom vm b0 (cur :: rest) = true := by
  simp [nasSavedFrom, h]

/-- C6: for a run that executes at least one epoch and whose first
validation metric beats the `-1` sentinel, `train_nas` succeeds; during the
epoch loop every evaluation is of the validation split (index 1, label
`"val"`); the test split (index 2, label `"test"`) is evaluated exactly
once, after the loop, immediately after the best model is reloaded from
disk onto the configured device; and the function returns the 4-tuple
`(best_val_result, test_accuracy, training_time * 1000, num_params)`,
where `best_val_result` is the running maximum (seeded with `-1`) of the
per-epoch validation metrics and the training time accumulates only the
`train_epoch` wall-clock durations. -/
theorem train_nas_val_loop_test_once (c : NasCfg)
    (start_epoch num_splits : Nat) (valMetric : Nat → ℚ) (testMetric : ℚ)
    (epochTime : Nat → ℚ) (num_params : Nat)
    (hlt : start_epoch < c.max_epoch)
    (hfirst : (-1 : ℚ) < valMetric start_epoch) :
    ∃ pre,
      train_nas c start_epoch num_splits valMetric testMetric epochTime
          num_params
        = Except.ok (pre ++ [Event.loadModel c.device,
              Event.evalEpochCall 2 "test" (c.max_epoch - 1),
              Event.writeEpoch 2 (c.max_epoch - 1)]
            ++ (List.range num_splits).map Event.closeLogger
            ++ (if c.ckpt_clean then [Event.cleanCkpt] else []),
            ((List.range' start_epoch (c.max_epoch - start_epoch)).map
                valMetric).foldl (fun b v => if b < v then v else b) (-1),
            testMetric,
            (((List.range' start_epoch (c.max_epoch - start_epoch)).map
                epochTime).sum) * 1000,
            num_params)
      ∧ (∀ i nm e, Event.evalEpochCall i nm e ∈ pre →
          i = 1 ∧ nm = "val" ∧ start_epoch ≤ e ∧ e < c.max_epoch) := by
  have hepochs : List.range' start_epoch (c.max_epoch - start_epoch)
      = start_epoch
        :: List.range' (start_epoch + 1) (c.max_epoch - start_epoch - 1) := by
    rw [show c.max_epoch - start_epoch
        = (c.max_epoch - start_epoch - 1) + 1 from by omega, List.range'_succ]
    simp
  have hsaved : nasSavedFrom valMetric (-1)
      (List.range' start_epoch (c.max_epoch - start_epoch)) = true := by
    rw [hepochs]
    exact nasSavedFrom_cons_of_lt _ _ _ _ hfirst
  have hlast : (List.range' start_epoch
      (c.max_epoch - start_epoch)).getLast? = some (c.max_epoch - 1) := by
    rw [range1_getLast _ _ (by omega)]
    congr 1
    omega
  refine ⟨(if start_epoch = c.max_epoch then
        [Event.logInfo "Checkpoint found, Task already done"]
      else [Event.logInfo ("Start from epoch " ++ toString start_epoch)])
      ++ nasTraceFrom c valMetric (-1)
          (List.range' start_epoch (c.max_epoch - start_epoch)), ?_, ?_⟩
  · simp only [train_nas, nasLoop_spec, hsaved, hlast, Bool.false_or,
      if_true, zero_add]
  · intro i nm e hmem
    rw [List.mem_append] at hmem
    rcases hmem with hmem | hmem
    · exfalso
      revert hmem
      split <;> simp
    · obtain ⟨hi, hnm, he⟩ :=
        evalCall_mem_nasTraceFrom c valMetric _ _ i nm e hmem
      rw [List.mem_range'_1] at he
      exact ⟨hi, hnm, he.1, by omega⟩

/-- Witness for `train_nas_val_loop_test_once`: one epoch, three splits,
constant validation metric 1. -/
theorem train_nas_val_loop_test_once_witness :
    ((0 : Nat) < 1 ∧ (-1 : ℚ) < 1)
    ∧ ∃ pre,
        train_nas ⟨1, false, "cpu", fun _ => false⟩ 0 3 (fun _ => 1) 2
            (fun _ => 3) 7
          = Except.ok (pre ++ [Event.loadModel "cpu",
                Event.evalEpochCall 2 "test" 0, Event.writeEpoch 2 0]
              ++ (List.range 3).map Event.closeLogger
              ++ (if (false : Bool) then [Event.cleanCkpt] else []),
              ((List.range' 0 1).map (fun _ => (1 : ℚ))).foldl
                (fun b v => if b < v then v else b) (-1),
              2,
              (((List.range' 0 1).map (fun _ => (3 : ℚ))).sum) * 1000,
              7)
        ∧ (∀ i nm e, Event.evalEpochCall i nm e ∈ pre →
            i = 1 ∧ nm = "val" ∧ 0 ≤ e ∧ e < 1) := by
  refine ⟨⟨by norm_num, by norm_num⟩, ?_⟩
  exact train_nas_val_loop_test_once ⟨1, false, "cpu", fun _ => false⟩ 0 3
    (fun _ => 1) 2 (fun _ => 3) 7 (by norm_num) (by norm_num)

/-- C9: when the resumed start epoch is not below `cfg.optim.max_epoch`,
the epoch loop of `train_nas` runs zero iterations and the function cannot
return its 4-tuple: within the call no `torch.save` ever executed, so the
`torch.load(model_path)` that follows the loop fails (and the
`write_epoch(cur_epoch)` after it would reference the never-bound loop
variable `cur_epoch`).  Hence `train_nas` completes normally only when
`start_epoch < cfg.optim.max_epoch` and at least one epoch executes. -/
theorem train_nas_empty_loop_fails (c : NasCfg)
    (start_epoch num_splits : Nat) (valMetric : Nat → ℚ) (testMetric : ℚ)
    (epochTime : Nat → ℚ) (num_params : Nat)
    (h : c.max_epoch ≤ start_epoch) :
    train_nas c start_epoch num_splits valMetric testMetric epochTime
        num_params
      = Except.error "FileNotFoundError: best-model file was never written" := by
  have h0 : c.max_epoch - start_epoch = 0 := by omega
  simp only [train_nas, h0]
  rfl

/-- Witness for `train_nas_empty_loop_fails`: resumed start epoch equal to
the configured maximum. -/
theorem train_nas_empty_loop_fails_witness :
    (2 : Nat) ≤ 2
    ∧ train_nas ⟨2, false, "cpu", fun _ => false⟩ 2 3 (fun _ => 0) 0
        (fun _ => 0) 5
      = Except.error "FileNotFoundError: best-model file was never written" :=
  ⟨by norm_num,
    train_nas_empty_loop_fails ⟨2, false, "cpu", fun _ => false⟩ 2 3
      (fun _ => 0) 0 (fun _ => 0) 5 (by norm_num)⟩


/-- The per-epoch validation metric sequence `[0.5, 0.7, 0.6, 0.8]` of the
spec's example (epochs 0 through 3). -/
def val4 : Nat → ℚ
  | 0 => 1/2
  | 1 => 7/10
  | 2 => 3/5
  | _ => 4/5

lemma val4_0 : val4 0 = 1/2 := rfl

lemma val4_1 : val4 1 = 7/10 := rfl

lemma val4_2 : val4 2 = 3/5 := rfl

lemma val4_3 : val4 3 = 4/5 := rfl

/-- C1 counterexample: running `train_nas` for 4 epochs on the validation
metric sequence `[0.5, 0.7, 0.6, 0.8]` ends with `best_val_result = 0.8`
but persists the model **3** times, not 2: `best_val_result` starts at the
sentinel `-1`, so already the first epoch's `0.5 > -1` triggers a save,
followed by saves at `0.7` and `0.8` — the claim "exactly 2 model saves
occur" evaluates to `false` on its own example. -/
theorem train_nas_saves_thrice_not_twice :
    ((train_nas ⟨4, false, "cpu", fun _ => false⟩ 0 3 val4 1 (fun _ => 1)
        17).toOption.map (fun r => (r.1.countP isSaveModel, r.2.1))
      = some (3, 4/5))
    ∧ ((train_nas ⟨4, false, "cpu", fun _ => false⟩ 0 3 val4 1 (fun _ => 1)
        17).toOption.map (fun r => decide (r.1.countP isSaveModel = 2))
      = some false) := by
  have hr : List.range' 0 (4 - 0) = [0, 1, 2, 3] := rfl
  have hl : ([0, 1, 2, 3] : List Nat).getLast? = some 3 := rfl
  have hc : (List.range 3).countP (isSaveModel ∘ Event.closeLogger) = 0 := rfl
  constructor <;>
    simp only [train_nas, hr, hl, nasLoop, nasEpoch, val4_0, val4_1, val4_2,
      val4_3] <;>
    norm_num [val4_1, val4_2, val4_3, hc, isSaveModel, Except.toOption,
      Except.map, List.countP_cons, List.countP_append]

/-- C1 (amended): in `train_nas`, `best_val_result` starts at the sentinel
`-1`, and at every epoch the best is updated and the full model object
persisted exactly when the current epoch's validation metric strictly
exceeds the best so far (the per-epoch rule is stated on `nasEpoch`);
consequently, for the per-epoch validation metric sequence
`[0.5, 0.7, 0.6, 0.8]`, `best_val_result` ends at `0.8` and exactly **3**
model saves occur, at the strict-new-maxima epochs 0, 1 and 3 (the first
epoch saves because `0.5 > -1`). -/
theorem train_nas_best_tracking :
    ((train_nas ⟨4, false, "cpu", fun _ => false⟩ 0 3 val4 1 (fun _ => 1)
        17).toOption.map (fun r => (r.1.filter isSaveModel, r.2.1))
      = some ([Event.saveModel 0, Event.saveModel 1, Event.saveModel 3],
          4/5))
    ∧ ∀ (c : NasCfg) (vm et : Nat → ℚ) (st : NasState) (cur : Nat),
        ((nasEpoch c vm et st cur).best
            = (if st.best < vm cur then vm cur else st.best))
        ∧ ((nasEpoch c vm et st cur).saved
            = (if st.best < vm cur then true else st.saved))
        ∧ (Event.saveModel cur ∈ (nasEpoch c vm et st cur).trace
            ↔ (Event.saveModel cur ∈ st.trace ∨ st.best < vm cur)) := by
  constructor
  · have hr : List.range' 0 (4 - 0) = [0, 1, 2, 3] := rfl
    have hl : ([0, 1, 2, 3] : List Nat).getLast? = some 3 := rfl
    have hf : (List.range 3).map Event.closeLogger
        = [Event.closeLogger 0, Event.closeLogger 1, Event.closeLogger 2] :=
      rfl
    simp only [train_nas, hr, hl, hf, nasLoop, nasEpoch, val4_0, val4_1,
      val4_2, val4_3]
    norm_num [val4_1, val4_2, val4_3, isSaveModel, Except.toOption,
      Except.map, List.filter]
  · intro c vm et st cur
    refine ⟨rfl, rfl, ?_⟩
    by_cases h1 : st.best < vm cur <;> by_cases h2 : c.is_ckpt_epoch cur <;>
      simp [nasEpoch, h1, h2]

/-! ## `eval_epoch`: frame property -/

/-- Appending one element per item through a left fold is a map. -/
lemma foldl_append_singleton {α β : Type} (f : α → β) :
    ∀ (l : List α) (acc : List β),
      l.foldl (fun lg b => lg ++ [f b]) acc = acc ++ l.map f := by
  intro l
  induction l with
  | nil => intro acc; simp
  | cons b rest ih =>
    intro acc
    simp [ih, List.append_assoc]

/-- C7: `eval_epoch` never alters any model parameter — the parameters
(and the forward function) are identical before and after the call, for
every loader content; the only mutation of the model object is the switch
to evaluation mode (`model.eval()`).  It runs entirely under the
`@torch.no_grad()` context and appends exactly one statistics record per
batch, each with learning rate fixed at 0 and gradient tracking
disabled. -/
theorem eval_epoch_frame (compute_loss : ℚ → ℚ → ℚ × ℚ) (cfg_params : Nat)
    (logger : List StatRecord) (loader : List Batch) (model : Model)
    ( split : String) :
    ((eval_epoch compute_loss cfg_params logger loader model split).1.params
        = model.params)
    ∧ ((eval_epoch compute_loss cfg_params logger loader model
        split).1.forward = model.forward)
    ∧ ((eval_epoch compute_loss cfg_params logger loader model
        split).1.training = false)
    ∧ ((eval_epoch compute_loss cfg_params logger loader model
        split).2.length = logger.length + loader.length)
    ∧ (∀ r ∈ (eval_epoch compute_loss cfg_params logger loader model
          split).2.drop logger.length,
        r.lr = 0 ∧ r.grad_enabled = false ∧ r.params = cfg_params) := by
  refine ⟨rfl, rfl, rfl, ?_, ?_⟩
  · simp [eval_epoch, foldl_append_singleton]
  · intro r hr
    rw [show (eval_epoch compute_loss cfg_params logger loader model
        split).2
      = logger ++ loader.map (fun batch =>
          let pt := ({ model with training := false } : Model).forward batch.x
          let ls := compute_loss pt.1 pt.2
          { true_val := pt.2, pred := ls.2, loss := ls.1, lr := 0,
            params := cfg_params, grad_enabled := false }) from
      foldl_append_singleton _ loader logger] at hr
    rw [List.drop_append_of_le_length (le_refl logger.length),
      List.drop_length] at hr
    simp only [List.nil_append, List.mem_map] at hr
    obtain ⟨b, -, rfl⟩ := hr
    exact ⟨rfl, rfl, rfl⟩
